import Mathlib

/-!
# Verification of the p110 Tapo KLAP client

A shallow embedding of the Go sources (`internal/tapo/klap.go`,
`internal/tapo/types.go`, `internal/tapo/discovery.go`, `internal/tapo/p110.go`)
over byte lists (`List Nat`, each entry `< 256`), together with theorems
settling the specification claims about credential derivation, the KLAP
handshake, request framing, discovery and the energy-data time windows.

The SHA-256 and SHA-1 primitives (Go `crypto/sha256`, `crypto/sha1`) are
implemented concretely.  The AES-128 block cipher (Go `crypto/aes`) is kept
abstract: definitions that use it take the keyed block function as an explicit
parameter, and theorems assume only the block-level properties the Go library
guarantees (16-byte blocks, decryption inverts encryption).
-/

namespace P110

/-! ## 32-bit words and byte serialization -/

/-- Rotate a 32-bit word right by `n` bits. -/
def rotr (n x : Nat) : Nat := ((x >>> n) ||| (x <<< (32 - n))) % 4294967296

/-- Rotate a 32-bit word left by `n` bits. -/
def rotl (n x : Nat) : Nat := ((x <<< n) ||| (x >>> (32 - n))) % 4294967296

/-- Big-endian 4-byte serialization of a 32-bit word
(`binary.BigEndian.PutUint32`). -/
def be32 (w : Nat) : List Nat :=
  [w / 16777216 % 256, w / 65536 % 256, w / 256 % 256, w % 256]

/-- Big-endian 8-byte serialization of a 64-bit word. -/
def be64 (w : Nat) : List Nat :=
  [w / 72057594037927936 % 256, w / 281474976710656 % 256,
   w / 1099511627776 % 256, w / 4294967296 % 256,
   w / 16777216 % 256, w / 65536 % 256, w / 256 % 256, w % 256]

/-- Big-endian read of a byte list as a number (`binary.BigEndian.Uint32` on a
4-byte slice). -/
def beToNat (l : List Nat) : Nat := l.foldl (fun acc b => acc * 256 + b) 0

/-- Fuel-driven worker for `chunksSucc`; `fuel` bounds the recursion depth so
the definition is structural (and hence reduces in the kernel). -/
def chunksGo (k : Nat) : Nat → List Nat → List (List Nat)
  | _, [] => []
  | 0, _ :: _ => []
  | fuel + 1, x :: xs => (x :: xs.take k) :: chunksGo k fuel (xs.drop k)

/-- Split a byte list into chunks of `k+1` bytes (the final chunk may be
shorter when the length is not a multiple of `k+1`). -/
def chunksSucc (k : Nat) (l : List Nat) : List (List Nat) := chunksGo k l.length l

/-- The fuel argument of `chunksGo` is irrelevant once it covers the list. -/
theorem chunksGo_fuel (k : Nat) :
    ∀ (f1 f2 : Nat) (l : List Nat), l.length ≤ f1 → l.length ≤ f2 →
      chunksGo k f1 l = chunksGo k f2 l := by
  intro f1
  induction f1 with
  | zero =>
    intro f2 l h1 _
    cases l with
    | nil => cases f2 <;> rfl
    | cons x xs => simp at h1
  | succ f ih =>
    intro f2 l h1 h2
    cases l with
    | nil => cases f2 <;> rfl
    | cons x xs =>
      cases f2 with
      | zero => simp at h2
      | succ f2' =>
        simp only [chunksGo]
        congr 1
        apply ih
        · simpa using Nat.le_trans (Nat.sub_le _ _) (Nat.le_of_succ_le_succ h1)
        · simpa using Nat.le_trans (Nat.sub_le _ _) (Nat.le_of_succ_le_succ h2)

/-- `chunksSucc` on the empty list. -/
theorem chunksSucc_nil (k : Nat) : chunksSucc k [] = [] := rfl

/-- Unfolding equation for `chunksSucc` on a nonempty list. -/
theorem chunksSucc_cons (k : Nat) (x : Nat) (xs : List Nat) :
    chunksSucc k (x :: xs) = (x :: xs.take k) :: chunksSucc k (xs.drop k) := by
  show chunksGo k (xs.length + 1) (x :: xs) = _
  simp only [chunksGo]
  congr 1
  apply chunksGo_fuel
  · simp
  · exact Nat.le_refl _

/-- Concatenating the chunks recovers the original list. -/
theorem chunksSucc_flatten (k : Nat) (l : List Nat) : (chunksSucc k l).flatten = l := by
  suffices h : ∀ (n : Nat) (l : List Nat), l.length ≤ n → (chunksSucc k l).flatten = l from
    h l.length l (Nat.le_refl _)
  intro n
  induction n with
  | zero =>
    intro l h
    cases l with
    | nil => simp [chunksSucc_nil]
    | cons x xs => simp at h
  | succ n ih =>
    intro l h
    cases l with
    | nil => simp [chunksSucc_nil]
    | cons x xs =>
      rw [chunksSucc_cons, List.flatten_cons, ih _ (by simp at h ⊢; omega)]
      simp [List.take_append_drop]

/-! ## SHA-256 (Go `crypto/sha256`) -/

/-- The SHA-256 round constants. -/
def sha256K : List Nat :=
  [1116352408, 1899447441, 3049323471, 3921009573, 961987163,
   1508970993, 2453635748, 2870763221, 3624381080, 310598401,
   607225278, 1426881987, 1925078388, 2162078206, 2614888103,
   3248222580, 3835390401, 4022224774, 264347078, 604807628,
   770255983, 1249150122, 1555081692, 1996064986, 2554220882,
   2821834349, 2952996808, 3210313671, 3336571891, 3584528711,
   113926993, 338241895, 666307205, 773529912, 1294757372,
   1396182291, 1695183700, 1986661051, 2177026350, 2456956037,
   2730485921, 2820302411, 3259730800, 3345764771, 3516065817,
   3600352804, 4094571909, 275423344, 430227734, 506948616,
   659060556, 883997877, 958139571, 1322822218, 1537002063,
   1747873779, 1955562222, 2024104815, 2227730452, 2361852424,
   2428436474, 2756734187, 3204031479, 3329325298]

/-- The eight 32-bit words of SHA-256 chaining state. -/
structure Sha256St where
  a : Nat
  b : Nat
  c : Nat
  d : Nat
  e : Nat
  f : Nat
  g : Nat
  h : Nat

/-- SHA-256 initial state. -/
def sha256Init : Sha256St :=
  ⟨1779033703, 3144134277, 1013904242, 2773480762,
   1359893119, 2600822924, 528734635, 1541459225⟩

/-- SHA-256 message-schedule sigma-0. -/
def ssig0 (x : Nat) : Nat := rotr 7 x ^^^ rotr 18 x ^^^ (x >>> 3)

/-- SHA-256 message-schedule sigma-1. -/
def ssig1 (x : Nat) : Nat := rotr 17 x ^^^ rotr 19 x ^^^ (x >>> 10)

/-- Extend 16 message words to the 64-word SHA-256 schedule. -/
def sha256Schedule (w16 : List Nat) : List Nat :=
  (List.range 48).foldl (fun w _ =>
    let n := w.length
    w ++ [(w.getD (n - 16) 0 + ssig0 (w.getD (n - 15) 0) + w.getD (n - 7) 0 +
           ssig1 (w.getD (n - 2) 0)) % 4294967296]) w16

/-- One SHA-256 compression round. -/
def sha256Round (st : Sha256St) (k w : Nat) : Sha256St :=
  let s1 := rotr 6 st.e ^^^ rotr 11 st.e ^^^ rotr 25 st.e
  let ch := (st.e &&& st.f) ^^^ ((st.e ^^^ 4294967295) &&& st.g)
  let t1 := (st.h + s1 + ch + k + w) % 4294967296
  let s0 := rotr 2 st.a ^^^ rotr 13 st.a ^^^ rotr 22 st.a
  let maj := (st.a &&& st.b) ^^^ (st.a &&& st.c) ^^^ (st.b &&& st.c)
  let t2 := (s0 + maj) % 4294967296
  ⟨(t1 + t2) % 4294967296, st.a, st.b, st.c, (st.d + t1) % 4294967296,
   st.e, st.f, st.g⟩

/-- Compress one 64-byte block into the chaining state. -/
def sha256Compress (st : Sha256St) (block : List Nat) : Sha256St :=
  let ws := sha256Schedule ((chunksSucc 3 block).map beToNat)
  let r := (sha256K.zip ws).foldl (fun s kw => sha256Round s kw.1 kw.2) st
  ⟨(st.a + r.a) % 4294967296, (st.b + r.b) % 4294967296,
   (st.c + r.c) % 4294967296, (st.d + r.d) % 4294967296,
   (st.e + r.e) % 4294967296, (st.f + r.f) % 4294967296,
   (st.g + r.g) % 4294967296, (st.h + r.h) % 4294967296⟩

/-- Merkle–Damgård padding shared by SHA-256 and SHA-1: append `0x80`, zero
bytes up to 56 mod 64, then the 64-bit big-endian bit length. -/
def shaPadMsg (msg : List Nat) : List Nat :=
  msg ++ [128] ++ List.replicate ((119 - msg.length % 64) % 64) 0 ++
    be64 (8 * msg.length)

/-- SHA-256 of a byte string, as its 32 digest bytes. -/
def sha256 (msg : List Nat) : List Nat :=
  let st := (chunksSucc 63 (shaPadMsg msg)).foldl sha256Compress sha256Init
  be32 st.a ++ be32 st.b ++ be32 st.c ++ be32 st.d ++
    be32 st.e ++ be32 st.f ++ be32 st.g ++ be32 st.h

/-! ## SHA-1 (Go `crypto/sha1`) -/

/-- The five 32-bit words of SHA-1 chaining state. -/
structure Sha1St where
  a : Nat
  b : Nat
  c : Nat
  d : Nat
  e : Nat

/-- SHA-1 initial state. -/
def sha1Init : Sha1St := ⟨1732584193, 4023233417, 2562383102, 271733878, 3285377520⟩

/-- Extend 16 message words to the 80-word SHA-1 schedule. -/
def sha1Schedule (w16 : List Nat) : List Nat :=
  (List.range 64).foldl (fun w _ =>
    let n := w.length
    w ++ [rotl 1 (w.getD (n - 3) 0 ^^^ w.getD (n - 8) 0 ^^^
                  w.getD (n - 14) 0 ^^^ w.getD (n - 16) 0)]) w16

/-- The SHA-1 round function for round `i`. -/
def sha1F (i b c d : Nat) : Nat :=
  if i < 20 then (b &&& c) ||| ((b ^^^ 4294967295) &&& d)
  else if i < 40 then b ^^^ c ^^^ d
  else if i < 60 then (b &&& c) ||| (b &&& d) ||| (c &&& d)
  else b ^^^ c ^^^ d

/-- The SHA-1 round constant for round `i`. -/
def sha1K (i : Nat) : Nat :=
  if i < 20 then 1518500249
  else if i < 40 then 1859775393
  else if i < 60 then 2400959708
  else 3395469782

/-- Compress one 64-byte block into the SHA-1 chaining state. -/
def sha1Compress (st : Sha1St) (block : List Nat) : Sha1St :=
  let ws := sha1Schedule ((chunksSucc 3 block).map beToNat)
  let r := (List.range 80).foldl (fun s i =>
    let t := (rotl 5 s.a + sha1F i s.b s.c s.d + s.e + sha1K i +
              ws.getD i 0) % 4294967296
    ⟨t, s.a, rotl 30 s.b, s.c, s.d⟩) st
  ⟨(st.a + r.a) % 4294967296, (st.b + r.b) % 4294967296,
   (st.c + r.c) % 4294967296, (st.d + r.d) % 4294967296,
   (st.e + r.e) % 4294967296⟩

/-- SHA-1 of a byte string, as its 20 digest bytes. -/
def sha1 (msg : List Nat) : List Nat :=
  let st := (chunksSucc 63 (shaPadMsg msg)).foldl sha1Compress sha1Init
  be32 st.a ++ be32 st.b ++ be32 st.c ++ be32 st.d ++ be32 st.e

/-- The SHA-256 digest is always 32 bytes. -/
theorem sha256_length (msg : List Nat) : (sha256 msg).length = 32 := rfl

/-- The SHA-1 digest is always 20 bytes. -/
theorem sha1_length (msg : List Nat) : (sha1 msg).length = 20 := rfl

/-! ## Signed 32-bit integers (Go `int32`) -/

/-- Interpret a `Nat` (reduced mod 2^32) as a signed two's-complement 32-bit
value — the Go conversion `int32(u)` for `u : uint32`. -/
def toInt32 (n : Nat) : Int :=
  if n % 4294967296 < 2147483648 then (n % 4294967296 : Int)
  else (n % 4294967296 : Int) - 4294967296

/-- Go `int32` addition/increment semantics: wrap into `[-2^31, 2^31)`
(signed overflow wraps around in two's complement). -/
def wrap32 (i : Int) : Int :=
  let m := i % 4294967296
  if m < 2147483648 then m else m - 4294967296

/-- The Go conversion `uint32(seq)` of an `int32` value: its two's-complement
bit pattern as a number. -/
def int32Bits (i : Int) : Nat := (i % 4294967296).toNat

/-- `binary.BigEndian.PutUint32(buf, uint32(seq))`: the 4 big-endian bytes of
the sequence number. -/
def int32be (i : Int) : List Nat := be32 (int32Bits i)

/-! ## AES-CBC layer (Go `crypto/aes`, `crypto/cipher`) -/

/-- Byte-wise XOR, the CBC chaining operation. -/
def xorBytes (a b : List Nat) : List Nat := List.zipWith (fun x y => x ^^^ y) a b

/-- `aes.NewCipher` succeeds exactly on 16-, 24- or 32-byte keys
(Go `crypto/aes` returns `KeySizeError` otherwise). -/
def aesCipherOk (key : List Nat) : Bool :=
  key.length == 16 || key.length == 24 || key.length == 32

/-- CBC encryption over a list of 16-byte blocks (`cipher.NewCBCEncrypter`
then `CryptBlocks`), with `E` the keyed AES block-encryption function. -/
def cbcEnc (E : List Nat → List Nat) (iv : List Nat) :
    List (List Nat) → List (List Nat)
  | [] => []
  | b :: bs => let c := E (xorBytes iv b); c :: cbcEnc E c bs

/-- CBC decryption over a list of 16-byte blocks (`cipher.NewCBCDecrypter`
then `CryptBlocks`), with `D` the keyed AES block-decryption function. -/
def cbcDec (D : List Nat → List Nat) (iv : List Nat) :
    List (List Nat) → List (List Nat)
  | [] => []
  | c :: cs => xorBytes iv (D c) :: cbcDec D c cs

/-! ## PKCS#7 padding (klap.go) -/

/-- `pkcs7Pad`: pad the data to the block size using PKCS7. -/
def pkcs7Pad (data : List Nat) (blockSize : Nat) : List Nat :=
  let padding := blockSize - data.length % blockSize
  data ++ List.replicate padding padding

/-- `pkcs7Unpad`: remove PKCS7 padding; `Except.error` models the Go error
return values, and the replication loop is the bounded quantifier. -/
def pkcs7Unpad (data : List Nat) : Except String (List Nat) :=
  let length := data.length
  if length = 0 then .error "empty data"
  else
    let padding := data.getD (length - 1) 0
    if padding > length ∨ padding = 0 then .error "invalid padding"
    else if ∀ i < padding, data.getD (length - 1 - i) 0 = padding then
      .ok (data.take (length - padding))
    else .error "invalid padding"

/-! ## KLAP session (klap.go) -/

/-- `klapSeedSize` (klap.go). -/
def klapSeedSize : Nat := 16

/-- `klapIVSize` (klap.go). -/
def klapIVSize : Nat := 12

/-- The pure cryptographic state of `klapSession` (klap.go); the HTTP client,
base URL and host fields are transport-only and not modelled. -/
structure KlapState where
  localSeed : List Nat
  remoteSeed : List Nat
  authHash : List Nat
  key : List Nat
  ivSeq : List Nat
  sig : List Nat
  seq : Int

/-- A fresh session as built by `newKlapSession`: seeds and auth hash set,
derived key material still empty (`seq` zero-initialised like any Go int32). -/
def mkSession (ls rs ah : List Nat) : KlapState :=
  { localSeed := ls, remoteSeed := rs, authHash := ah,
    key := [], ivSeq := [], sig := [], seq := 0 }

/-- The byte string `"lsk"`. -/
def strLsk : List Nat := [108, 115, 107]

/-- The byte string `"iv"`. -/
def strIv : List Nat := [105, 118]

/-- The byte string `"ldk"`. -/
def strLdk : List Nat := [108, 100, 107]

/-- `concat` (klap.go): append the given byte slices in order. -/
def concat (slices : List (List Nat)) : List Nat :=
  slices.foldl (fun acc s => acc ++ s) []

/-- `sha256Hash` (klap.go) writes each part into one SHA-256 computation,
which is SHA-256 of their concatenation. -/
def sha256Hash (parts : List (List Nat)) : List Nat := sha256 (concat parts)

/-- `generateAuthHash` (klap.go): `SHA256(SHA1(username) + SHA1(password))`.
Go strings are byte sequences; credentials are modelled as byte lists. -/
def generateAuthHash (username password : List Nat) : List Nat :=
  let userHash := sha1 username
  let passHash := sha1 password
  let combined := userHash ++ passHash
  sha256 combined

/-- `deriveKeys` (klap.go): derive `key`, `ivSeq`, `seq` and `sig` from
`local_seed + remote_seed + auth_hash`. -/
def deriveKeys (s : KlapState) : KlapState :=
  let localHash := concat [s.localSeed, s.remoteSeed, s.authHash]
  let keyData := sha256Hash [strLsk, localHash]
  let ivData := sha256Hash [strIv, localHash]
  let sigData := sha256Hash [strLdk, localHash]
  { s with
    key := keyData.take 16
    ivSeq := ivData.take klapIVSize
    seq := toInt32 (beToNat ((ivData.drop 28).take 4))
    sig := sigData.take 28 }

/-- `calculateServerHash` (klap.go):
`SHA256(local_seed + remote_seed + auth_hash)`. -/
def calculateServerHash (s : KlapState) : List Nat :=
  sha256Hash [s.localSeed, s.remoteSeed, s.authHash]

/-- `calculateClientHash` (klap.go):
`SHA256(remote_seed + local_seed + auth_hash)`. -/
def calculateClientHash (s : KlapState) : List Nat :=
  sha256Hash [s.remoteSeed, s.localSeed, s.authHash]

/-- The two failure modes of `handshake1` past the transport layer (klap.go):
a response body of the wrong length, and server-hash verification failure
(flagged "invalid credentials?" in the code — the spec's `AuthFailed`). -/
inductive HsError where
  | badLength (n : Nat)
  | authFailed
deriving DecidableEq

/-- The body-processing part of `handshake1` (klap.go): require a 48-byte
body, store `remoteSeed = body[:16]`, verify `body[16:48]` against the
expected server hash. -/
def handshake1Process (s : KlapState) (body : List Nat) :
    Except HsError KlapState :=
  if body.length ≠ 48 then .error (.badLength body.length)
  else
    let s1 := { s with remoteSeed := body.take 16 }
    let serverHash := (body.drop 16).take 32
    if serverHash = calculateServerHash s1 then .ok s1
    else .error .authFailed

/-- The 16-byte IV built by `encrypt`/`decrypt` (klap.go): a zeroed 16-byte
buffer receives a copy of `ivSeq` (only its first 12 bytes survive, offsets
12..16 being overwritten next), then the big-endian `uint32(seq)` at
offset 12. -/
def buildIV (ivSeq : List Nat) (seq : Int) : List Nat :=
  (ivSeq.take 12 ++ List.replicate (12 - ivSeq.length) 0) ++ int32be seq

/-- `encrypt` (klap.go), with `E` the keyed AES block-encryption function of
`crypto/aes`.  Returns the Go `(payload, seq, error)` results as an `Except`
together with the updated session (Go increments `s.seq` before anything
else, so the state is advanced on the error path too). -/
def klapEncrypt (E : List Nat → List Nat → List Nat) (s : KlapState)
    (plaintext : List Nat) : Except String (List Nat × Int) × KlapState :=
  let seq := wrap32 (s.seq + 1)
  let s1 := { s with seq := seq }
  let iv := buildIV s.ivSeq seq
  let padded := pkcs7Pad plaintext 16
  if aesCipherOk s.key then
    let ciphertext := (cbcEnc (E s.key) iv (chunksSucc 15 padded)).flatten
    let signature := sha256Hash [s.sig, int32be seq, ciphertext]
    (.ok (signature ++ ciphertext, seq), s1)
  else
    (.error "failed to create AES cipher", s1)

/-- Decrypt outcomes (klap.go `decrypt`): the Go error returns, plus
`notFullBlocks` marking the inputs on which Go `CryptBlocks` raises a runtime
panic (ciphertext not a whole number of AES blocks) instead of returning. -/
inductive DecError where
  | tooShort
  | sigInvalid
  | cipherError
  | notFullBlocks
  | padInvalid
deriving DecidableEq

/-- `decrypt` (klap.go), with `D` the keyed AES block-decryption function:
length check, then signature verification against
`SHA256(sig ‖ seq_be ‖ ciphertext)` with `signature = payload[:32]` and
`ciphertext = payload[32:]` inlined, then AES-CBC decryption and PKCS7
unpadding. -/
def klapDecrypt (D : List Nat → List Nat → List Nat) (s : KlapState)
    (payload : List Nat) (seq : Int) : Except DecError (List Nat) :=
  if payload.length < 32 then .error .tooShort
  else if payload.take 32 ≠ sha256Hash [s.sig, int32be seq, payload.drop 32] then
    .error .sigInvalid
  else if ¬aesCipherOk s.key then .error .cipherError
  else if (payload.drop 32).length % 16 ≠ 0 then .error .notFullBlocks
  else
    match pkcs7Unpad ((cbcDec (D s.key) (buildIV s.ivSeq seq)
        (chunksSucc 15 (payload.drop 32))).flatten) with
    | .error _ => .error .padInvalid
    | .ok pt => .ok pt

/-- The observable outcome of one `request` call (klap.go): the `seq` placed
in the `/app/request?seq=<s>` query string, the posted body, and the decrypted
response. -/
structure RequestTrace where
  urlSeq : Int
  sentBody : List Nat
  result : Except DecError (List Nat)

/-- `request` (klap.go): encrypt, POST the payload to `request?seq=<seq>`,
decrypt the response body with the same `seq`.  `respond` abstracts the
device (the HTTP response body as a function of the posted body); transport
failures are not modelled. -/
def klapRequest (E D : List Nat → List Nat → List Nat)
    (respond : List Nat → List Nat) (s : KlapState) (payload : List Nat) :
    Except String RequestTrace × KlapState :=
  match klapEncrypt E s payload with
  | (.error e, s1) => (.error e, s1)
  | (.ok (encrypted, seq), s1) =>
      (.ok { urlSeq := seq, sentBody := encrypted,
             result := klapDecrypt D s1 (respond encrypted) seq }, s1)

/-! ## Device envelope (p110.go `sendRequest`) -/

/-- The decoded `klapResponse` envelope (types.go): `error_code` and the raw
`result` JSON (Go `json.RawMessage`, kept as bytes). -/
structure KlapResponse where
  errorCode : Int
  result : List Nat

/-- Failures of `sendRequest` past the transport layer (p110.go): a response
that does not unmarshal, or a non-zero device `error_code` (the spec's
`DeviceError{code}`). -/
inductive ReqError where
  | unmarshalFailed
  | deviceError (code : Int)
deriving DecidableEq

/-- The envelope-handling tail of `sendRequest` (p110.go): unmarshal the
decrypted response, fail on non-zero `error_code`, otherwise hand back the
raw `result`.  `parse` abstracts `json.Unmarshal` into `klapResponse`. -/
def handleDeviceResponse (parse : List Nat → Option KlapResponse)
    (respJSON : List Nat) : Except ReqError (List Nat) :=
  match parse respJSON with
  | none => .error .unmarshalFailed
  | some resp =>
      if resp.errorCode ≠ 0 then .error (.deviceError resp.errorCode)
      else .ok resp.result

/-! ## Discovery (discovery.go `DiscoverWithTimeout`) -/

/-- The fields of a parsed `discoveryResponse` that the reply loop reads
(types.go): `error_code` and the `result` subobject's identifiers. -/
structure DiscoveryReply where
  errorCode : Int
  ip : String
  mac : String
  deviceId : String
  model : String

/-- `DiscoveredDevice` (types.go); the `Alias` field is never populated by
discovery and is omitted. -/
structure DiscoveredDevice where
  ip : String
  mac : String
  deviceId : String
  model : String
deriving DecidableEq

/-- A received UDP datagram: its payload bytes and the source address
(`addr.IP.String()`). -/
structure RecvPacket where
  payload : List Nat
  srcAddr : String

/-- The accumulating state of the discovery reply loop: collected devices and
the `seen` IP set (a Go map, modelled as the list of inserted keys). -/
structure DiscState where
  devices : List DiscoveredDevice
  seen : List String

/-- One iteration of the `DiscoverWithTimeout` reply loop (discovery.go):
skip datagrams of at most 16 bytes, skip bodies that do not parse as JSON,
skip non-zero `error_code`, substitute the UDP source address for an empty
reported IP, and suppress duplicate IPs.  `parse` abstracts `json.Unmarshal`
into `discoveryResponse`.  Every skip is a plain `continue` — no iteration
raises an error. -/
def processPacket (parse : List Nat → Option DiscoveryReply) (st : DiscState)
    (pkt : RecvPacket) : DiscState :=
  if pkt.payload.length ≤ 16 then st
  else
    match parse (pkt.payload.drop 16) with
    | none => st
    | some resp =>
        if resp.errorCode ≠ 0 then st
        else
          let ip := if resp.ip = "" then pkt.srcAddr else resp.ip
          if st.seen.contains ip then st
          else { devices := st.devices ++ [⟨ip, resp.mac, resp.deviceId, resp.model⟩],
                 seen := st.seen ++ [ip] }

/-- The whole reply-collection phase of `DiscoverWithTimeout`: fold the loop
body over the datagrams received before the deadline, starting from the empty
device list and empty `seen` set, and return the device list. -/
def discoverProcess (parse : List Nat → Option DiscoveryReply)
    (pkts : List RecvPacket) : List DiscoveredDevice :=
  (pkts.foldl (processPacket parse) ⟨[], []⟩).devices

/-! ## Energy-data time windows (types.go, p110.go) -/

/-- A Go `time.Time` reference instant, reduced to the accessors
`getStartEndTimestamps` reads: calendar year, month (1..12), day of month,
and location.  A location is modelled as a fixed UTC offset in seconds
(Go `time.FixedZone`); the function only ever resolves midnights in this
location, so a fixed offset captures the `time.Date(...).Unix()` calls. -/
structure GoTime where
  year : Int
  month : Nat
  day : Nat
  loc : Int

/-- Days from the Unix epoch to day 1 of the given month in the proleptic
Gregorian calendar (what Go `time` computes internally); `m` is 1..12. -/
def daysFromCivil (y : Int) (m : Nat) : Int :=
  let yi := if m ≤ 2 then y - 1 else y
  let era := yi.fdiv 400
  let yoe := yi - 400 * era
  let mp := (m + 9) % 12
  let doy : Int := ((153 * mp + 2) / 5 : Nat)
  let doe : Int := 365 * yoe + yoe.fdiv 4 - yoe.fdiv 100 + doy
  146097 * era + doe - 719468

/-- Go `time.Date(y, m, 1 + (d-1), 0, 0, 0, 0, loc).Unix()` for the midnights
the code builds: normalize the month into 1..12 (month overflow rolls into
the year, Go's `norm`), then convert the local civil date to Unix seconds by
subtracting the zone offset.  Faithful for `m ≥ 1`, which covers every call
site (month values 1..13). -/
def timeDateUnix (y : Int) (m d : Nat) (loc : Int) : Int :=
  let y1 := y + ((m - 1) / 12 : Nat)
  let m1 := (m - 1) % 12 + 1
  (daysFromCivil y1 m1 + ((d : Int) - 1)) * 86400 - loc

/-- `getQuarterStartMonth` (types.go): `3*((month-1)/3) + 1`. -/
def getQuarterStartMonth (t : GoTime) : Nat := 3 * ((t.month - 1) / 3) + 1

/-- `getStartEndTimestamps` (types.go).  `EnergyDataInterval` is a Go string
type, so the interval argument is a `String`; the `default` branch returns
`(0, 0)`.  The hourly end is `start.Add(24 * time.Hour)`, a plain 86400-second
shift; the daily end is `start.AddDate(0, 3, 0)`, which re-runs `time.Date`
on the quarter start with the month advanced by 3 (normalized). -/
def getStartEndTimestamps (interval : String) (t : GoTime) : Int × Int :=
  if interval = "hourly" then
    let start := timeDateUnix t.year t.month t.day t.loc
    (start, start + 24 * 60 * 60)
  else if interval = "daily" then
    let quarterStart := getQuarterStartMonth t
    let start := timeDateUnix t.year quarterStart 1 t.loc
    (start, timeDateUnix t.year (quarterStart + 3) 1 t.loc)
  else if interval = "monthly" then
    (timeDateUnix t.year 1 1 t.loc, timeDateUnix (t.year + 1) 1 1 t.loc)
  else (0, 0)

/-- `IntervalHourly` (types.go): 60 minutes. -/
def IntervalHourly : Nat := 60

/-- `IntervalDaily` (types.go): 1440 minutes. -/
def IntervalDaily : Nat := 1440

/-- `IntervalMonthly` (types.go): 43200 minutes. -/
def IntervalMonthly : Nat := 43200

/-- The interval-minutes switch of `GetEnergyData` (p110.go); `none` models
the error return for an unknown interval string. -/
def intervalMinutes (interval : String) : Option Nat :=
  if interval = "hourly" then some IntervalHourly
  else if interval = "daily" then some IntervalDaily
  else if interval = "monthly" then some IntervalMonthly
  else none

/-- The spec's §4.7 window formulas, stated from the spec text (the
refinement comparand for `getStartEndTimestamps`): hourly — midnight of T's
day in Z to 24 hours later; daily — the first day of the calendar quarter
containing T (quarter start month `3·⌊(month−1)/3⌋+1`) to 3 calendar months
later, which is the first day of the next quarter and rolls into January of
the following year for Q4; monthly — Jan 1 of T's year to Jan 1 of the
following year.  All at midnight in T's zone, as Unix seconds. -/
def specWindow (interval : String) (t : GoTime) : Int × Int :=
  if interval = "hourly" then
    let midnight := timeDateUnix t.year t.month t.day t.loc
    (midnight, midnight + 86400)
  else if interval = "daily" then
    let q := 3 * ((t.month - 1) / 3) + 1
    (timeDateUnix t.year q 1 t.loc,
     if q = 10 then timeDateUnix (t.year + 1) 1 1 t.loc
     else timeDateUnix t.year (q + 3) 1 t.loc)
  else if interval = "monthly" then
    (timeDateUnix t.year 1 1 t.loc, timeDateUnix (t.year + 1) 1 1 t.loc)
  else (0, 0)

/-! ## Supporting lemmas -/

/-- `getD` inside a replicate block. -/
theorem getD_replicate (n i a d : Nat) (h : i < n) :
    (List.replicate n a).getD i d = a := by
  simp [List.getD, List.getElem?_replicate, h]

/-- `concat` of two slices. -/
theorem concat_pair (a b : List Nat) : concat [a, b] = a ++ b := by
  simp [concat]

/-- `concat` of three slices. -/
theorem concat_triple (a b c : List Nat) : concat [a, b, c] = a ++ b ++ c := by
  simp [concat]

/-- Length of a byte-wise XOR. -/
theorem xorBytes_length (a b : List Nat) :
    (xorBytes a b).length = min a.length b.length := by
  simp [xorBytes]

/-- XOR-ing twice with the same block is the identity. -/
theorem xorBytes_cancel :
    ∀ (a b : List Nat), a.length = b.length → xorBytes a (xorBytes a b) = b := by
  intro a
  induction a with
  | nil =>
    intro b h
    cases b with
    | nil => rfl
    | cons y ys => simp at h
  | cons x xs ih =>
    intro b h
    cases b with
    | nil => simp at h
    | cons y ys =>
      simp only [xorBytes, List.zipWith_cons_cons]
      rw [Nat.xor_cancel_left]
      have := ih ys (by simp at h; omega)
      simp only [xorBytes] at this
      rw [this]

/-- Every chunk of a list whose length is a multiple of 16 has length 16. -/
theorem chunksSucc15_mem_length :
    ∀ (n : Nat) (l : List Nat), l.length ≤ n → l.length % 16 = 0 →
      ∀ b ∈ chunksSucc 15 l, b.length = 16 := by
  intro n
  induction n with
  | zero =>
    intro l h _ b hb
    cases l with
    | nil => simp [chunksSucc_nil] at hb
    | cons x xs => simp at h
  | succ n ih =>
    intro l h hm b hb
    cases l with
    | nil => simp [chunksSucc_nil] at hb
    | cons x xs =>
      rw [chunksSucc_cons] at hb
      rcases List.mem_cons.mp hb with hb | hb
      · subst hb
        simp only [List.length_cons, List.length_take]
        simp only [List.length_cons] at hm
        omega
      · apply ih (xs.drop 15) _ _ b hb
        · simp at h ⊢; omega
        · simp only [List.length_cons] at hm
          simp only [List.length_drop]
          omega

/-- Chunking the flattening of a list of 16-byte blocks recovers the
blocks. -/
theorem chunksSucc15_of_flatten :
    ∀ (bs : List (List Nat)), (∀ b ∈ bs, b.length = 16) →
      chunksSucc 15 bs.flatten = bs := by
  intro bs
  induction bs with
  | nil => simp [chunksSucc_nil]
  | cons b rest ih =>
    intro hb
    have hbl : b.length = 16 := hb b (List.mem_cons_self _ _)
    cases b with
    | nil => simp at hbl
    | cons x xs =>
      have hxs : xs.length = 15 := by simp at hbl; omega
      simp only [List.flatten_cons, List.cons_append]
      rw [chunksSucc_cons]
      congr 1
      · have ht : List.take 15 (xs ++ rest.flatten) = xs := by
          rw [← hxs]; exact List.take_left _ _
        rw [ht]
      · have hd : List.drop 15 (xs ++ rest.flatten) = rest.flatten := by
          rw [← hxs]; exact List.drop_left _ _
        rw [hd]
        exact ih (fun c hc => hb c (List.mem_cons_of_mem _ hc))

/-- CBC decryption inverts CBC encryption on 16-byte blocks, given that the
block cipher does. -/
theorem cbcDec_cbcEnc (E D : List Nat → List Nat)
    (hED : ∀ x, x.length = 16 → D (E x) = x)
    (hElen : ∀ x, x.length = 16 → (E x).length = 16) :
    ∀ (bs : List (List Nat)) (iv : List Nat), iv.length = 16 →
      (∀ b ∈ bs, b.length = 16) → cbcDec D iv (cbcEnc E iv bs) = bs := by
  intro bs
  induction bs with
  | nil => intro iv _ _; rfl
  | cons b rest ih =>
    intro iv hiv hb
    have hblen : b.length = 16 := hb b (List.mem_cons_self _ _)
    have hxlen : (xorBytes iv b).length = 16 := by
      rw [xorBytes_length, hiv, hblen]; omega
    simp only [cbcEnc, cbcDec]
    rw [hED _ hxlen, xorBytes_cancel iv b (by rw [hiv, hblen]),
        ih _ (hElen _ hxlen) (fun c hc => hb c (List.mem_cons_of_mem _ hc))]

/-- Length of a CBC encryption: 16 bytes per block. -/
theorem cbcEnc_flatten_length (E : List Nat → List Nat)
    (hElen : ∀ x, x.length = 16 → (E x).length = 16) :
    ∀ (bs : List (List Nat)) (iv : List Nat), iv.length = 16 →
      (∀ b ∈ bs, b.length = 16) →
      ((cbcEnc E iv bs).flatten).length = 16 * bs.length := by
  intro bs
  induction bs with
  | nil => intro iv _ _; rfl
  | cons b rest ih =>
    intro iv hiv hb
    have hblen : b.length = 16 := hb b (List.mem_cons_self _ _)
    have hxlen : (xorBytes iv b).length = 16 := by
      rw [xorBytes_length, hiv, hblen]; omega
    simp only [cbcEnc, List.flatten_cons, List.length_append]
    rw [hElen _ hxlen,
        ih _ (hElen _ hxlen) (fun c hc => hb c (List.mem_cons_of_mem _ hc))]
    simp [List.length_cons]
    ring

/-- Every block produced by CBC encryption of 16-byte blocks is 16 bytes. -/
theorem cbcEnc_mem_length (E : List Nat → List Nat)
    (hElen : ∀ x, x.length = 16 → (E x).length = 16) :
    ∀ (bs : List (List Nat)) (iv : List Nat), iv.length = 16 →
      (∀ b ∈ bs, b.length = 16) →
      ∀ c ∈ cbcEnc E iv bs, c.length = 16 := by
  intro bs
  induction bs with
  | nil => intro iv _ _ c hc; simp [cbcEnc] at hc
  | cons b rest ih =>
    intro iv hiv hb c hc
    have hblen : b.length = 16 := hb b (List.mem_cons_self _ _)
    have hxlen : (xorBytes iv b).length = 16 := by
      rw [xorBytes_length, hiv, hblen]; omega
    simp only [cbcEnc] at hc
    rcases List.mem_cons.mp hc with hc | hc
    · subst hc; exact hElen _ hxlen
    · exact ih _ (hElen _ hxlen) (fun d hd => hb d (List.mem_cons_of_mem _ hd)) c hc

/-- The IV the code builds is always 16 bytes. -/
theorem buildIV_length (ivSeq : List Nat) (seq : Int) :
    (buildIV ivSeq seq).length = 16 := by
  simp [buildIV, int32be, be32, List.length_take]
  omega

/-- Length of PKCS7 padding output. -/
theorem pkcs7Pad_length (x : List Nat) :
    (pkcs7Pad x 16).length = x.length + (16 - x.length % 16) := by
  simp [pkcs7Pad]

/-- PKCS7 padding to 16 always yields a positive multiple of 16. -/
theorem pkcs7Pad_length_mod (x : List Nat) :
    (pkcs7Pad x 16).length % 16 = 0 ∧ 0 < (pkcs7Pad x 16).length := by
  rw [pkcs7Pad_length]
  omega

/-- `pkcs7Unpad` strips a well-formed pad: any positive number `p` of
trailing `p` bytes. -/
theorem pkcs7Unpad_append_replicate (x : List Nat) (p : Nat) (hp : 1 ≤ p) :
    pkcs7Unpad (x ++ List.replicate p p) = .ok x := by
  have hlen : (x ++ List.replicate p p).length = x.length + p := by simp
  have hgd : ∀ i, i < p →
      (x ++ List.replicate p p).getD (x.length + p - 1 - i) 0 = p := by
    intro i hi
    have hidx : x.length + p - 1 - i = x.length + (p - 1 - i) := by omega
    rw [hidx, List.getD_append_right _ _ _ _ (by omega)]
    have : x.length + (p - 1 - i) - x.length = p - 1 - i := by omega
    rw [this, getD_replicate _ _ _ _ (by omega)]
  have hlast2 : (x ++ List.replicate p p).getD (x.length + p - 1) 0 = p := by
    have := hgd 0 (by omega)
    simpa using this
  rw [pkcs7Unpad]
  simp only [hlen, hlast2]
  rw [if_neg (by omega), if_neg (by omega), if_pos hgd]
  congr 1
  rw [show x.length + p - p = x.length by omega, List.take_left]

/-- Unpadding inverts padding (block size 16). -/
theorem pkcs7Unpad_pkcs7Pad (x : List Nat) :
    pkcs7Unpad (pkcs7Pad x 16) = .ok x := by
  rw [pkcs7Pad]
  exact pkcs7Unpad_append_replicate x _ (by omega)

/-- Taking exactly the length of the left part of an append. -/
theorem take_append_eq (n : Nat) (a b : List Nat) (h : a.length = n) :
    (a ++ b).take n = a := by
  subst h; exact List.take_left a b

/-- Dropping exactly the length of the left part of an append. -/
theorem drop_append_eq (n : Nat) (a b : List Nat) (h : a.length = n) :
    (a ++ b).drop n = b := by
  subst h; exact List.drop_left a b

/-- Go month normalization: month 13 of year `y` is January of year `y+1`
(the `AddDate(0, 3, 0)` case for the fourth quarter). -/
theorem timeDateUnix_month13 (y loc : Int) :
    timeDateUnix y 13 1 loc = timeDateUnix (y + 1) 1 1 loc := by
  simp [timeDateUnix]

/-- Characterization of `handshake1Process` on 48-byte bodies. -/
theorem handshake1Process_eq48 (s : KlapState) (body : List Nat)
    (hl : body.length = 48) :
    handshake1Process s body =
      if body.drop 16 = sha256 (s.localSeed ++ body.take 16 ++ s.authHash)
      then .ok { s with remoteSeed := body.take 16 }
      else .error .authFailed := by
  have h32 : (body.drop 16).take 32 = body.drop 16 :=
    List.take_of_length_le (by simp [hl])
  unfold handshake1Process
  rw [if_neg (by omega)]
  simp only [h32, calculateServerHash, sha256Hash, concat_triple]

/-! ## Claim C1 -/

/-- **C1**: credential and key derivation is a pure function of its inputs
with the spec's exact formulas and sizes: `generateAuthHash` returns
`SHA256(SHA1(username) ‖ SHA1(password))`; and with
`H = local_seed ‖ remote_seed ‖ auth_hash`, `deriveKeys` sets
`key = SHA256("lsk" ‖ H)[0..16]` (16 bytes),
`iv_seed = SHA256("iv" ‖ H)[0..12]` (12 bytes),
`sig_key = SHA256("ldk" ‖ H)[0..28]` (28 bytes), and the initial sequence
number is bytes 28..32 of `SHA256("iv" ‖ H)` read as a signed big-endian
32-bit integer. -/
theorem claim1_key_derivation (u pw ls rs ah : List Nat) :
    generateAuthHash u pw = sha256 (sha1 u ++ sha1 pw) ∧
    (deriveKeys (mkSession ls rs ah)).key =
      (sha256 (strLsk ++ (ls ++ rs ++ ah))).take 16 ∧
    (deriveKeys (mkSession ls rs ah)).key.length = 16 ∧
    (deriveKeys (mkSession ls rs ah)).ivSeq =
      (sha256 (strIv ++ (ls ++ rs ++ ah))).take 12 ∧
    (deriveKeys (mkSession ls rs ah)).ivSeq.length = 12 ∧
    (deriveKeys (mkSession ls rs ah)).sig =
      (sha256 (strLdk ++ (ls ++ rs ++ ah))).take 28 ∧
    (deriveKeys (mkSession ls rs ah)).sig.length = 28 ∧
    (deriveKeys (mkSession ls rs ah)).seq =
      toInt32 (beToNat (((sha256 (strIv ++ (ls ++ rs ++ ah))).drop 28).take 4)) := by
  refine ⟨rfl, ?_, ?_, ?_, ?_, ?_, ?_, ?_⟩ <;>
    simp [deriveKeys, mkSession, sha256Hash, concat, klapIVSize,
      List.length_take, sha256_length, List.append_assoc]

/-! ## Claim C7 -/

/-- **C7**: for every reference time T (with a calendar month 1..12) in
timezone Z, `getStartEndTimestamps` returns the Unix-second pair of the
spec's window formulas — hourly: midnight of T's day in Z to +24h, interval
60; daily: first day of the calendar quarter containing T (quarter start
month `3·⌊(month−1)/3⌋+1`) at midnight to +3 calendar months, interval 1440;
monthly: Jan 1 of T's year to Jan 1 of the following year, interval 43200. -/
theorem claim7_energy_windows (t : GoTime) (h1 : 1 ≤ t.month)
    (h2 : t.month ≤ 12) :
    getStartEndTimestamps "hourly" t = specWindow "hourly" t ∧
    intervalMinutes "hourly" = some 60 ∧
    getStartEndTimestamps "daily" t = specWindow "daily" t ∧
    intervalMinutes "daily" = some 1440 ∧
    getStartEndTimestamps "monthly" t = specWindow "monthly" t ∧
    intervalMinutes "monthly" = some 43200 := by
  refine ⟨?_, rfl, ?_, rfl, ?_, rfl⟩
  · simp [getStartEndTimestamps, specWindow]
  · have hq : 3 * ((t.month - 1) / 3) + 1 = 1 ∨ 3 * ((t.month - 1) / 3) + 1 = 4 ∨
        3 * ((t.month - 1) / 3) + 1 = 7 ∨ 3 * ((t.month - 1) / 3) + 1 = 10 := by
      omega
    rcases hq with hq | hq | hq | hq <;>
      simp [getStartEndTimestamps, specWindow, getQuarterStartMonth, hq,
        timeDateUnix_month13]
  · simp [getStartEndTimestamps, specWindow]

/-- Witness for C7 at the spec's reference date 2024-08-31 (UTC):
the daily window is Q3 (July 1 to October 1). -/
theorem claim7_witness :
    1 ≤ (GoTime.mk 2024 8 31 0).month ∧ (GoTime.mk 2024 8 31 0).month ≤ 12 ∧
    getStartEndTimestamps "daily" (GoTime.mk 2024 8 31 0) =
      specWindow "daily" (GoTime.mk 2024 8 31 0) :=
  ⟨by decide, by decide,
   (claim7_energy_windows (GoTime.mk 2024 8 31 0) (by decide) (by decide)).2.2.1⟩

/-! ## Claim C2 -/

/-- **C2**: handshake 1 succeeds exactly when the response body is 48 bytes
and its last 32 bytes equal `SHA256(local_seed ‖ remote_seed ‖ auth_hash)`
(the stored remote seed being the body's first 16 bytes); any other length
fails, and a hash mismatch fails as the credentials error (`AuthFailed`);
handshake 2 posts `client_hash = SHA256(remote_seed ‖ local_seed ‖
auth_hash)`, the seed order swapped relative to the server hash; and an
implementation that swaps the two orderings — presenting the handshake-2
hash where the server hash belongs — fails server-hash verification whenever
the two digests differ. -/
theorem claim2_handshake (s : KlapState) (body : List Nat) :
    (handshake1Process s body = .ok { s with remoteSeed := body.take 16 } ↔
      body.length = 48 ∧
      body.drop 16 = sha256 (s.localSeed ++ body.take 16 ++ s.authHash)) ∧
    (body.length ≠ 48 →
      handshake1Process s body = .error (.badLength body.length)) ∧
    (body.length = 48 →
      body.drop 16 ≠ sha256 (s.localSeed ++ body.take 16 ++ s.authHash) →
      handshake1Process s body = .error .authFailed) ∧
    calculateClientHash s = sha256 (s.remoteSeed ++ s.localSeed ++ s.authHash) ∧
    calculateServerHash s = sha256 (s.localSeed ++ s.remoteSeed ++ s.authHash) ∧
    (∀ rs, rs.length = 16 →
      sha256 (rs ++ s.localSeed ++ s.authHash) ≠
        sha256 (s.localSeed ++ rs ++ s.authHash) →
      handshake1Process s (rs ++ sha256 (rs ++ s.localSeed ++ s.authHash)) =
        .error .authFailed) := by
  refine ⟨?_, ?_, ?_, ?_, ?_, ?_⟩
  · constructor
    · intro h
      by_cases hl : body.length = 48
      · rw [handshake1Process_eq48 s body hl] at h
        by_cases hs : body.drop 16 = sha256 (s.localSeed ++ body.take 16 ++ s.authHash)
        · exact ⟨hl, hs⟩
        · rw [if_neg hs] at h; cases h
      · unfold handshake1Process at h
        rw [if_pos hl] at h; cases h
    · rintro ⟨hl, hs⟩
      rw [handshake1Process_eq48 s body hl, if_pos hs]
  · intro hl
    unfold handshake1Process
    rw [if_pos hl]
  · intro hl hs
    rw [handshake1Process_eq48 s body hl, if_neg hs]
  · simp [calculateClientHash, sha256Hash, concat_triple]
  · simp [calculateServerHash, sha256Hash, concat_triple]
  · intro rs hrs hne
    have hlen : (rs ++ sha256 (rs ++ s.localSeed ++ s.authHash)).length = 48 := by
      simp [hrs, sha256_length]
    have htake : (rs ++ sha256 (rs ++ s.localSeed ++ s.authHash)).take 16 = rs :=
      take_append_eq 16 _ _ hrs
    have hdrop : (rs ++ sha256 (rs ++ s.localSeed ++ s.authHash)).drop 16 =
        sha256 (rs ++ s.localSeed ++ s.authHash) :=
      drop_append_eq 16 _ _ hrs
    rw [handshake1Process_eq48 s _ hlen, htake, hdrop, if_neg hne]

set_option maxRecDepth 200000 in
/-- Witness for C2: concrete 16-byte seeds and a 32-byte auth hash on which
the swapped-order digest differs from the server digest, so a swapped
implementation fails verification with `AuthFailed`. -/
theorem claim2_witness :
    (List.replicate 16 2).length = 16 ∧
    handshake1Process (mkSession (List.replicate 16 1) [] (List.replicate 32 3))
        (List.replicate 16 2 ++
          sha256 (List.replicate 16 2 ++ List.replicate 16 1 ++ List.replicate 32 3)) =
      .error .authFailed :=
  ⟨by decide,
   (claim2_handshake (mkSession (List.replicate 16 1) [] (List.replicate 32 3))
       []).2.2.2.2.2 (List.replicate 16 2) (by decide) (by decide)⟩

/-! ## Claim C8 -/

/-- Appending a fresh element preserves distinctness. -/
theorem nodup_append_singleton (l : List String) (a : String) (h : l.Nodup)
    (h2 : a ∉ l) : (l ++ [a]).Nodup := by
  simp [List.nodup_append, h, h2]

/-- Invariant of the discovery reply loop: the collected devices' IPs are
exactly the `seen` keys, in insertion order, and are distinct. -/
theorem processPacket_inv (parse : List Nat → Option DiscoveryReply)
    (st : DiscState) (pkt : RecvPacket)
    (h1 : st.devices.map (fun d => d.ip) = st.seen) (h2 : st.seen.Nodup) :
    (processPacket parse st pkt).devices.map (fun d => d.ip) =
      (processPacket parse st pkt).seen ∧
    (processPacket parse st pkt).seen.Nodup := by
  unfold processPacket
  split
  · exact ⟨h1, h2⟩
  · split
    · exact ⟨h1, h2⟩
    · rename_i resp heq
      split
      · exact ⟨h1, h2⟩
      · have key : ∀ ipv : String,
            (DiscState.devices (if st.seen.contains ipv = true then st
              else ⟨st.devices ++ [⟨ipv, resp.mac, resp.deviceId, resp.model⟩],
                    st.seen ++ [ipv]⟩)).map (fun d => d.ip) =
              DiscState.seen (if st.seen.contains ipv = true then st
                else ⟨st.devices ++ [⟨ipv, resp.mac, resp.deviceId, resp.model⟩],
                      st.seen ++ [ipv]⟩) ∧
            (DiscState.seen (if st.seen.contains ipv = true then st
              else ⟨st.devices ++ [⟨ipv, resp.mac, resp.deviceId, resp.model⟩],
                    st.seen ++ [ipv]⟩)).Nodup := by
          intro ipv
          by_cases hseen : st.seen.contains ipv = true
          · simp only [if_pos hseen]
            exact ⟨h1, h2⟩
          · simp only [if_neg hseen]
            exact ⟨by simp [h1], nodup_append_singleton _ _ h2 (by simpa using hseen)⟩
        exact key _

/-- The loop invariant holds after folding any packet sequence. -/
theorem discoverFold_inv (parse : List Nat → Option DiscoveryReply)
    (pkts : List RecvPacket) :
    ∀ st : DiscState, st.devices.map (fun d => d.ip) = st.seen → st.seen.Nodup →
      (pkts.foldl (processPacket parse) st).devices.map (fun d => d.ip) =
        (pkts.foldl (processPacket parse) st).seen ∧
      (pkts.foldl (processPacket parse) st).seen.Nodup := by
  induction pkts with
  | nil => intro st hA hB; exact ⟨hA, hB⟩
  | cons p ps ih =>
    intro st hA hB
    have h := processPacket_inv parse st p hA hB
    exact ih _ h.1 h.2

/-- **C8**: discovery drops — without raising any error, the loop body being
total — every reply whose UDP payload is at most 16 bytes, whose body after
the 16-byte header does not parse as JSON, or whose `error_code` is non-zero;
replies for an already-seen IP are suppressed, so the returned devices have
pairwise-distinct IPs and the first reply wins; and when the reported `ip`
field is empty the UDP source address is substituted. -/
theorem claim8_discovery (parse : List Nat → Option DiscoveryReply)
    (pkts : List RecvPacket) :
    ((discoverProcess parse pkts).map (fun d => d.ip)).Nodup ∧
    (∀ st pkt, pkt.payload.length ≤ 16 → processPacket parse st pkt = st) ∧
    (∀ st pkt, 16 < pkt.payload.length → parse (pkt.payload.drop 16) = none →
      processPacket parse st pkt = st) ∧
    (∀ st pkt r, parse (pkt.payload.drop 16) = some r → r.errorCode ≠ 0 →
      processPacket parse st pkt = st) ∧
    (∀ st pkt r, parse (pkt.payload.drop 16) = some r → r.errorCode = 0 →
      st.seen.contains (if r.ip = "" then pkt.srcAddr else r.ip) = true →
      processPacket parse st pkt = st) ∧
    (∀ st pkt r, 16 < pkt.payload.length →
      parse (pkt.payload.drop 16) = some r → r.errorCode = 0 → r.ip = "" →
      st.seen.contains pkt.srcAddr = false →
      processPacket parse st pkt =
        ⟨st.devices ++ [⟨pkt.srcAddr, r.mac, r.deviceId, r.model⟩],
         st.seen ++ [pkt.srcAddr]⟩) := by
  refine ⟨?_, ?_, ?_, ?_, ?_, ?_⟩
  · have h := discoverFold_inv parse pkts ⟨[], []⟩ rfl List.nodup_nil
    unfold discoverProcess
    rw [h.1]
    exact h.2
  · intro st pkt h
    unfold processPacket
    rw [if_pos h]
  · intro st pkt h hp
    unfold processPacket
    rw [if_neg (by omega), hp]
  · intro st pkt r hp hc
    unfold processPacket
    split
    · rfl
    · simp only [hp]
      rw [if_pos hc]
  · intro st pkt r hp hc hseen
    unfold processPacket
    split
    · rfl
    · simp only [hp]
      rw [if_neg (by simp [hc])]
      simp only [hseen, if_pos]
  · intro st pkt r hlen hp hc hip hseen
    unfold processPacket
    rw [if_neg (by omega)]
    simp [hp, hc, hip, hseen]
    intro hmem
    exact absurd hmem (by simpa using hseen)

/-- Witness for C8: a 17-byte datagram whose body parses with `error_code` 0
and an empty `ip` is admitted with the UDP source address substituted. -/
theorem claim8_witness :
    16 < (List.replicate 17 9 : List Nat).length ∧
    processPacket
        (fun b => if b.length = 1 then some ⟨0, "", "aa:bb", "dev1", "P110"⟩ else none)
        ⟨[], []⟩ ⟨List.replicate 17 9, "10.0.0.5"⟩ =
      ⟨[⟨"10.0.0.5", "aa:bb", "dev1", "P110"⟩], ["10.0.0.5"]⟩ :=
  ⟨by decide,
   (claim8_discovery
       (fun b => if b.length = 1 then some ⟨0, "", "aa:bb", "dev1", "P110"⟩ else none)
       []).2.2.2.2.2 ⟨[], []⟩ ⟨List.replicate 17 9, "10.0.0.5"⟩
     ⟨0, "", "aa:bb", "dev1", "P110"⟩ (by decide) rfl rfl rfl rfl⟩

/-! ## Claim C9 -/

/-- **C9**: when the decrypted response envelope parses with a non-zero
`error_code` E, `sendRequest` fails with an error carrying E verbatim and the
caller receives no result value; the `result` field is returned exactly when
E = 0. -/
theorem claim9_device_error (parse : List Nat → Option KlapResponse)
    (respJSON : List Nat) (r : KlapResponse) (hp : parse respJSON = some r) :
    (r.errorCode ≠ 0 →
      handleDeviceResponse parse respJSON = .error (.deviceError r.errorCode)) ∧
    (r.errorCode = 0 → handleDeviceResponse parse respJSON = .ok r.result) ∧
    (∀ out, handleDeviceResponse parse respJSON = .ok out →
      r.errorCode = 0 ∧ out = r.result) := by
  unfold handleDeviceResponse
  simp only [hp]
  refine ⟨fun h => by rw [if_pos h], fun h => by rw [if_neg (by simp [h])], ?_⟩
  intro out hout
  by_cases h : r.errorCode = 0
  · rw [if_neg (by simp [h])] at hout
    cases hout
    exact ⟨h, rfl⟩
  · rw [if_pos h] at hout
    cases hout

/-- Witness for C9: a device error code -1001 is surfaced verbatim and no
result is returned. -/
theorem claim9_witness :
    ((-1001 : Int) ≠ 0) ∧
    handleDeviceResponse (fun _ => some ⟨-1001, [1, 2]⟩) [] =
      .error (.deviceError (-1001)) :=
  ⟨by decide,
   (claim9_device_error (fun _ => some ⟨-1001, [1, 2]⟩) [] ⟨-1001, [1, 2]⟩ rfl).1
     (by decide)⟩

/-! ## Claim C10 -/

/-- A nonempty list has at least one chunk. -/
theorem chunksSucc_ne_nil (k x : Nat) (xs : List Nat) :
    chunksSucc k (x :: xs) ≠ [] := by
  rw [chunksSucc_cons]; simp

/-- A `sha256Hash` digest is 32 bytes. -/
theorem sha256Hash_length (parts : List (List Nat)) :
    (sha256Hash parts).length = 32 := sha256_length _

/-- `deriveKeys` always produces a 16-byte key, a 12-byte IV seed and a
28-byte signature key (truncations of 32-byte SHA-256 digests). -/
theorem deriveKeys_lengths (s : KlapState) :
    (deriveKeys s).key.length = 16 ∧ (deriveKeys s).ivSeq.length = 12 ∧
    (deriveKeys s).sig.length = 28 := by
  refine ⟨?_, ?_, ?_⟩ <;>
    simp [deriveKeys, sha256Hash, klapIVSize, List.length_take, sha256_length]

/-- The ciphertext `encrypt` produces: AES-CBC over the PKCS7-padded
plaintext, under the IV carrying the post-increment sequence number. -/
def encCiphertext (E : List Nat → List Nat → List Nat) (s : KlapState)
    (plaintext : List Nat) : List Nat :=
  (cbcEnc (E s.key) (buildIV s.ivSeq (wrap32 (s.seq + 1)))
    (chunksSucc 15 (pkcs7Pad plaintext 16))).flatten

/-- The payload `encrypt` produces: 32-byte signature then ciphertext. -/
def encPayload (E : List Nat → List Nat → List Nat) (s : KlapState)
    (plaintext : List Nat) : List Nat :=
  sha256Hash [s.sig, int32be (wrap32 (s.seq + 1)), encCiphertext E s plaintext] ++
    encCiphertext E s plaintext

/-- `encrypt` always advances the stored sequence number, on the error path
too (Go increments `s.seq` before anything can fail). -/
theorem klapEncrypt_state (E : List Nat → List Nat → List Nat) (s : KlapState)
    (pt : List Nat) :
    (klapEncrypt E s pt).2 = { s with seq := wrap32 (s.seq + 1) } := by
  unfold klapEncrypt
  split <;> rfl

/-- On a 16-byte key, `encrypt` succeeds and returns the signed payload and
the incremented sequence number. -/
theorem klapEncrypt_ok (E : List Nat → List Nat → List Nat) (s : KlapState)
    (pt : List Nat) (hkey : s.key.length = 16) :
    (klapEncrypt E s pt).1 = .ok (encPayload E s pt, wrap32 (s.seq + 1)) := by
  unfold klapEncrypt
  rw [if_pos (by simp [aesCipherOk, hkey])]
  rfl

/-- All the blocks `encrypt` feeds to CBC are 16 bytes. -/
theorem encBlocks_length (pt : List Nat) :
    ∀ b ∈ chunksSucc 15 (pkcs7Pad pt 16), b.length = 16 :=
  chunksSucc15_mem_length (pkcs7Pad pt 16).length _ (Nat.le_refl _)
    (pkcs7Pad_length_mod pt).1

/-- The ciphertext is a positive multiple of 16 bytes when the block cipher
produces 16-byte blocks. -/
theorem encCiphertext_length (E : List Nat → List Nat → List Nat)
    (hElen : ∀ k x, x.length = 16 → (E k x).length = 16)
    (s : KlapState) (pt : List Nat) :
    (encCiphertext E s pt).length % 16 = 0 ∧ 0 < (encCiphertext E s pt).length := by
  have hmem := encBlocks_length pt
  have hlen := cbcEnc_flatten_length (E s.key) (hElen s.key)
    (chunksSucc 15 (pkcs7Pad pt 16)) _ (buildIV_length s.ivSeq (wrap32 (s.seq + 1))) hmem
  have hne : pkcs7Pad pt 16 ≠ [] := by
    intro h
    have := (pkcs7Pad_length_mod pt).2
    rw [h] at this
    simp at this
  have hpos : 0 < (chunksSucc 15 (pkcs7Pad pt 16)).length := by
    rcases hpp : pkcs7Pad pt 16 with _ | ⟨x, xs⟩
    · exact absurd hpp hne
    · have := chunksSucc_ne_nil 15 x xs
      exact List.length_pos.mpr this
  unfold encCiphertext
  rw [hlen]
  omega

/-- **C10**: on any session whose `key` field is 16 bytes — which
`deriveKeys` always establishes — `encrypt` never returns an error: the
`aes.NewCipher` failure branch is unreachable, every call succeeds, and the
payload is a 32-byte signature followed by a nonempty ciphertext whose
length is a multiple of 16. -/
theorem claim10_encrypt_no_error (E : List Nat → List Nat → List Nat)
    (hElen : ∀ k x, x.length = 16 → (E k x).length = 16)
    (s : KlapState) (pt : List Nat) (hkey : s.key.length = 16) :
    (klapEncrypt E s pt).1 = .ok (encPayload E s pt, wrap32 (s.seq + 1)) ∧
    (encPayload E s pt).length = 32 + (encCiphertext E s pt).length ∧
    (encCiphertext E s pt).length % 16 = 0 ∧
    0 < (encCiphertext E s pt).length ∧
    (encPayload E s pt).take 32 =
      sha256Hash [s.sig, int32be (wrap32 (s.seq + 1)), encCiphertext E s pt] ∧
    (∀ ls rs ah, (deriveKeys (mkSession ls rs ah)).key.length = 16) := by
  refine ⟨klapEncrypt_ok E s pt hkey, ?_, (encCiphertext_length E hElen s pt).1,
    (encCiphertext_length E hElen s pt).2, ?_, fun ls rs ah => (deriveKeys_lengths _).1⟩
  · simp [encPayload, sha256Hash_length]
  · exact take_append_eq 32 _ _ (sha256Hash_length _)

/-- Witness for C10: the identity block cipher on an all-zero 16-byte-key
session; encryption succeeds with a nonempty block-aligned ciphertext. -/
theorem claim10_witness :
    (KlapState.mk [] [] [] (List.replicate 16 0) (List.replicate 12 0)
        (List.replicate 28 0) 0).key.length = 16 ∧
    (klapEncrypt (fun _ x => x)
        (KlapState.mk [] [] [] (List.replicate 16 0) (List.replicate 12 0)
          (List.replicate 28 0) 0) []).1 =
      .ok (encPayload (fun _ x => x)
        (KlapState.mk [] [] [] (List.replicate 16 0) (List.replicate 12 0)
          (List.replicate 28 0) 0) [], wrap32 (0 + 1)) :=
  ⟨by decide,
   (claim10_encrypt_no_error (fun _ x => x) (fun _ x h => h)
     (KlapState.mk [] [] [] (List.replicate 16 0) (List.replicate 12 0)
       (List.replicate 28 0) 0) [] (by decide)).1⟩

/-! ## Claim C4 -/

/-- `decrypt` on a correctly signed, block-aligned payload reduces to CBC
decryption and unpadding. -/
theorem klapDecrypt_valid (D : List Nat → List Nat → List Nat) (s : KlapState)
    (ct : List Nat) (seq : Int)
    (hkey : aesCipherOk s.key = true) (hal : ct.length % 16 = 0) :
    klapDecrypt D s (sha256Hash [s.sig, int32be seq, ct] ++ ct) seq =
      match pkcs7Unpad ((cbcDec (D s.key) (buildIV s.ivSeq seq)
          (chunksSucc 15 ct)).flatten) with
      | .error _ => .error .padInvalid
      | .ok pt => .ok pt := by
  unfold klapDecrypt
  have hlen : (sha256Hash [s.sig, int32be seq, ct] ++ ct).length = 32 + ct.length := by
    simp [sha256Hash_length]
  rw [if_neg (by rw [hlen]; omega)]
  rw [drop_append_eq 32 _ _ (sha256Hash_length _),
      take_append_eq 32 _ _ (sha256Hash_length _)]
  rw [if_neg (by simp), if_neg (by simp [hkey]), if_neg (by simp [hal])]

/-- **C4**: for every session with keys derived by `deriveKeys` and every
plaintext p, a matched encrypt/decrypt round-trip using the same `seq`
yields p: `decrypt` applied to the payload `encrypt` produced (32-byte
signature ‖ AES-128-CBC ciphertext of the PKCS#7-padded p), with the `seq`
that `encrypt` used and the state `encrypt` left behind, returns exactly p. -/
theorem claim4_roundtrip (E D : List Nat → List Nat → List Nat)
    (hED : ∀ k x, x.length = 16 → D k (E k x) = x)
    (hElen : ∀ k x, x.length = 16 → (E k x).length = 16)
    (ls rs ah pt : List Nat) :
    (klapEncrypt E (deriveKeys (mkSession ls rs ah)) pt).1 =
      .ok (encPayload E (deriveKeys (mkSession ls rs ah)) pt,
        wrap32 ((deriveKeys (mkSession ls rs ah)).seq + 1)) ∧
    klapDecrypt D (klapEncrypt E (deriveKeys (mkSession ls rs ah)) pt).2
        (encPayload E (deriveKeys (mkSession ls rs ah)) pt)
        (wrap32 ((deriveKeys (mkSession ls rs ah)).seq + 1)) = .ok pt := by
  have hkey := (deriveKeys_lengths (mkSession ls rs ah)).1
  refine ⟨klapEncrypt_ok E _ pt hkey, ?_⟩
  rw [klapEncrypt_state]
  have hkey2 : aesCipherOk (deriveKeys (mkSession ls rs ah)).key = true := by
    simp [aesCipherOk, hkey]
  have hal := (encCiphertext_length E hElen (deriveKeys (mkSession ls rs ah)) pt).1
  have hpayload : encPayload E (deriveKeys (mkSession ls rs ah)) pt =
      sha256Hash [(deriveKeys (mkSession ls rs ah)).sig,
        int32be (wrap32 ((deriveKeys (mkSession ls rs ah)).seq + 1)),
        encCiphertext E (deriveKeys (mkSession ls rs ah)) pt] ++
      encCiphertext E (deriveKeys (mkSession ls rs ah)) pt := rfl
  rw [hpayload]
  have hvalid := klapDecrypt_valid D
    { deriveKeys (mkSession ls rs ah) with
        seq := wrap32 ((deriveKeys (mkSession ls rs ah)).seq + 1) }
    (encCiphertext E (deriveKeys (mkSession ls rs ah)) pt)
    (wrap32 ((deriveKeys (mkSession ls rs ah)).seq + 1)) hkey2 hal
  rw [hvalid]
  have hblocks := encBlocks_length pt
  have hcbc : chunksSucc 15 (encCiphertext E (deriveKeys (mkSession ls rs ah)) pt) =
      cbcEnc (E (deriveKeys (mkSession ls rs ah)).key)
        (buildIV (deriveKeys (mkSession ls rs ah)).ivSeq
          (wrap32 ((deriveKeys (mkSession ls rs ah)).seq + 1)))
        (chunksSucc 15 (pkcs7Pad pt 16)) :=
    chunksSucc15_of_flatten _
      (cbcEnc_mem_length _ (hElen _) _ _ (buildIV_length _ _) hblocks)
  rw [hcbc]
  rw [cbcDec_cbcEnc (E (deriveKeys (mkSession ls rs ah)).key)
    (D (deriveKeys (mkSession ls rs ah)).key) (hED _) (hElen _) _ _
    (buildIV_length _ _) hblocks]
  rw [chunksSucc_flatten, pkcs7Unpad_pkcs7Pad]

/-- Witness for C4: the identity block cipher round-trips the plaintext
`[42]` through a session derived from empty seeds. -/
theorem claim4_witness :
    klapDecrypt (fun _ x => x)
        (klapEncrypt (fun _ x => x) (deriveKeys (mkSession [] [] [])) [42]).2
        (encPayload (fun _ x => x) (deriveKeys (mkSession [] [] [])) [42])
        (wrap32 ((deriveKeys (mkSession [] [] [])).seq + 1)) = .ok [42] :=
  (claim4_roundtrip (fun _ x => x) (fun _ x => x) (fun _ _ _ => rfl)
    (fun _ _ h => h) [] [] [] [42]).2

/-! ## Claim C5 -/

/-- Decidable equality for `Except`, to evaluate concrete decrypt results. -/
instance {e a : Type} [DecidableEq e] [DecidableEq a] : DecidableEq (Except e a) :=
  fun x y =>
    match x, y with
    | .error e1, .error e2 => decidable_of_iff (e1 = e2) (by simp)
    | .ok x1, .ok x2 => decidable_of_iff (x1 = x2) (by simp)
    | .error _, .ok _ => isFalse (by simp)
    | .ok _, .error _ => isFalse (by simp)

/-- The CBC-decrypted remainder that `decrypt` unpads. -/
def decPlain (D : List Nat → List Nat → List Nat) (s : KlapState)
    (payload : List Nat) (seq : Int) : List Nat :=
  (cbcDec (D s.key) (buildIV s.ivSeq seq) (chunksSucc 15 (payload.drop 32))).flatten

/-- **C5** (amended): on a session with a valid AES key, `decrypt` fails
exactly when the payload is shorter than 32 bytes (`tooShort`, the spec's
`Malformed`), or the first 32 bytes differ from
`SHA256(sig_key ‖ int32_be(seq) ‖ payload[32..])` (`sigInvalid`, the spec's
`SignatureInvalid`), or the ciphertext is not a whole number of AES blocks
— on which the Go code does not return an error but panics inside
`CryptBlocks` (`notFullBlocks`) — or PKCS#7 unpadding of the CBC-decrypted
remainder fails (`padInvalid`, the spec's `Malformed`); a plaintext is
returned exactly in the remaining case, and it is the unpadded remainder. -/
theorem claim5_decrypt_errors (D : List Nat → List Nat → List Nat)
    (s : KlapState) (payload : List Nat) (seq : Int)
    (hkey : aesCipherOk s.key = true) :
    (payload.length < 32 → klapDecrypt D s payload seq = .error .tooShort) ∧
    (32 ≤ payload.length →
      payload.take 32 ≠ sha256Hash [s.sig, int32be seq, payload.drop 32] →
      klapDecrypt D s payload seq = .error .sigInvalid) ∧
    (32 ≤ payload.length →
      payload.take 32 = sha256Hash [s.sig, int32be seq, payload.drop 32] →
      (payload.drop 32).length % 16 ≠ 0 →
      klapDecrypt D s payload seq = .error .notFullBlocks) ∧
    (32 ≤ payload.length →
      payload.take 32 = sha256Hash [s.sig, int32be seq, payload.drop 32] →
      (payload.drop 32).length % 16 = 0 →
      klapDecrypt D s payload seq =
        match pkcs7Unpad (decPlain D s payload seq) with
        | .error _ => .error .padInvalid
        | .ok pt => .ok pt) ∧
    (∀ pt, klapDecrypt D s payload seq = .ok pt →
      32 ≤ payload.length ∧
      payload.take 32 = sha256Hash [s.sig, int32be seq, payload.drop 32] ∧
      (payload.drop 32).length % 16 = 0 ∧
      pkcs7Unpad (decPlain D s payload seq) = .ok pt) := by
  refine ⟨?_, ?_, ?_, ?_, ?_⟩
  · intro h
    unfold klapDecrypt
    rw [if_pos h]
  · intro hge hne
    unfold klapDecrypt
    rw [if_neg (by omega), if_pos hne]
  · intro hge hsig hal
    unfold klapDecrypt
    rw [if_neg (by omega), if_neg (by simp [hsig]), if_neg (by simp [hkey]),
        if_pos hal]
  · intro hge hsig hal
    unfold klapDecrypt
    rw [if_neg (by omega), if_neg (by simp [hsig]), if_neg (by simp [hkey]),
        if_neg (by push_neg; simpa using hal)]
    rfl
  · intro pt hok
    unfold klapDecrypt at hok
    by_cases h1 : payload.length < 32
    · rw [if_pos h1] at hok; cases hok
    · rw [if_neg h1] at hok
      by_cases h2 : payload.take 32 ≠ sha256Hash [s.sig, int32be seq, payload.drop 32]
      · rw [if_pos h2] at hok; cases hok
      · rw [if_neg h2] at hok
        push_neg at h2
        rw [if_neg (by simp [hkey])] at hok
        by_cases h3 : (payload.drop 32).length % 16 ≠ 0
        · rw [if_pos h3] at hok; cases hok
        · rw [if_neg h3] at hok
          push_neg at h3
          refine ⟨by omega, h2, h3, ?_⟩
          have hsame : pkcs7Unpad ((cbcDec (D s.key) (buildIV s.ivSeq seq)
              (chunksSucc 15 (payload.drop 32))).flatten) =
              pkcs7Unpad (decPlain D s payload seq) := rfl
          rw [hsame] at hok
          rcases hup : pkcs7Unpad (decPlain D s payload seq) with e | pt2
          · rw [hup] at hok
            simp at hok
          · rw [hup] at hok
            simp at hok
            subst hok
            rfl

/-- Witness for C5: on a short payload the result is the `Malformed`-class
length error. -/
theorem claim5_witness :
    aesCipherOk (KlapState.mk [] [] [] (List.replicate 16 0)
      (List.replicate 12 0) (List.replicate 28 0) 0).key = true ∧
    klapDecrypt (fun _ x => x)
        (KlapState.mk [] [] [] (List.replicate 16 0) (List.replicate 12 0)
          (List.replicate 28 0) 0) [1, 2, 3] 0 = .error .tooShort :=
  ⟨by decide,
   (claim5_decrypt_errors (fun _ x => x)
       (KlapState.mk [] [] [] (List.replicate 16 0) (List.replicate 12 0)
         (List.replicate 28 0) 0) [1, 2, 3] 0 (by decide)).1 (by decide)⟩

set_option maxRecDepth 200000 in
/-- Counterexample to C5 as stated: a 33-byte payload whose first 32 bytes
are the correct signature over the 1-byte remainder.  The claim's conditions
put it in the padding-failure case (the unpad of the remainder does fail),
so the claim requires a returned `Malformed` error; the code instead reaches
`CryptBlocks` with a non-block-multiple input and panics — modelled as the
distinct outcome `notFullBlocks`, which is none of the claim's outcomes. -/
theorem claim5_counterexample :
    klapDecrypt (fun _ x => x)
        (KlapState.mk [] [] [] (List.replicate 16 0) (List.replicate 12 0)
          (List.replicate 28 0) 0)
        (sha256Hash [List.replicate 28 0, int32be 0, [0]] ++ [0]) 0 =
      .error .notFullBlocks ∧
    32 ≤ (sha256Hash [List.replicate 28 0, int32be 0, [0]] ++ [0]).length ∧
    (sha256Hash [List.replicate 28 0, int32be 0, [0]] ++ [0]).take 32 =
      sha256Hash [List.replicate 28 0, int32be 0,
        (sha256Hash [List.replicate 28 0, int32be 0, [0]] ++ [0]).drop 32] ∧
    pkcs7Unpad (decPlain (fun _ x => x)
        (KlapState.mk [] [] [] (List.replicate 16 0) (List.replicate 12 0)
          (List.replicate 28 0) 0)
        (sha256Hash [List.replicate 28 0, int32be 0, [0]] ++ [0]) 0) =
      .error "invalid padding" ∧
    (DecError.notFullBlocks ≠ DecError.tooShort ∧
     DecError.notFullBlocks ≠ DecError.sigInvalid ∧
     DecError.notFullBlocks ≠ DecError.padInvalid) := by
  decide

/-! ## Claim C6 -/

/-- **C6** (amended): for nonempty data with final byte `p`, `pkcs7Unpad`
rejects exactly when `p = 0`, `p` exceeds the data length, or the final `p`
bytes are not all `p` — the final byte being greater than 16 is, by itself,
not a rejection condition. -/
theorem claim6_unpad_rejects (data : List Nat) (h : data ≠ []) :
    (data.getD (data.length - 1) 0 = 0 ∨
        data.length < data.getD (data.length - 1) 0 →
      pkcs7Unpad data = .error "invalid padding") ∧
    (¬(∀ i < data.getD (data.length - 1) 0,
        data.getD (data.length - 1 - i) 0 = data.getD (data.length - 1) 0) →
      pkcs7Unpad data = .error "invalid padding") ∧
    (∀ x, pkcs7Unpad data = .ok x ↔
      data.getD (data.length - 1) 0 ≠ 0 ∧
      data.getD (data.length - 1) 0 ≤ data.length ∧
      (∀ i < data.getD (data.length - 1) 0,
        data.getD (data.length - 1 - i) 0 = data.getD (data.length - 1) 0) ∧
      x = data.take (data.length - data.getD (data.length - 1) 0)) := by
  have hlen : ¬data.length = 0 := by simpa using h
  refine ⟨?_, ?_, ?_⟩
  · intro hbad
    unfold pkcs7Unpad
    rw [if_neg hlen, if_pos (by omega)]
  · intro hrep
    unfold pkcs7Unpad
    rw [if_neg hlen]
    by_cases hcond : data.length < data.getD (data.length - 1) 0 ∨
        data.getD (data.length - 1) 0 = 0
    · rw [if_pos (by omega)]
    · rw [if_neg (by omega), if_neg hrep]
  · intro x
    constructor
    · intro hok
      unfold pkcs7Unpad at hok
      rw [if_neg hlen] at hok
      by_cases hcond : data.getD (data.length - 1) 0 > data.length ∨
          data.getD (data.length - 1) 0 = 0
      · rw [if_pos hcond] at hok; cases hok
      · rw [if_neg hcond] at hok
        by_cases hrep : ∀ i < data.getD (data.length - 1) 0,
            data.getD (data.length - 1 - i) 0 = data.getD (data.length - 1) 0
        · rw [if_pos hrep] at hok
          cases hok
          exact ⟨by omega, by omega, hrep, rfl⟩
        · rw [if_neg hrep] at hok; cases hok
    · rintro ⟨h0, hle, hrep, hx⟩
      unfold pkcs7Unpad
      rw [if_neg hlen, if_neg (by omega), if_pos hrep, hx]

/-- Witness for C6: the one-byte string `[0]` (final byte 0) is rejected. -/
theorem claim6_witness :
    ([0] : List Nat) ≠ [] ∧ pkcs7Unpad [0] = .error "invalid padding" :=
  ⟨by decide, (claim6_unpad_rejects [0] (by decide)).1 (by decide)⟩

/-- Counterexample to C6 as stated: the 32-byte string of 15 zero bytes
followed by 17 bytes of value 17 has length a positive multiple of 16 and a
final byte greater than 16, yet `pkcs7Unpad` accepts it (the code compares
the pad byte against the data length, never against 16). -/
theorem claim6_counterexample :
    (List.replicate 15 0 ++ List.replicate 17 17 : List Nat).length % 16 = 0 ∧
    0 < (List.replicate 15 0 ++ List.replicate 17 17 : List Nat).length ∧
    (List.replicate 15 0 ++ List.replicate 17 17 : List Nat).getD
      ((List.replicate 15 0 ++ List.replicate 17 17 : List Nat).length - 1) 0 = 17 ∧
    16 < 17 ∧
    pkcs7Unpad (List.replicate 15 0 ++ List.replicate 17 17) =
      .ok (List.replicate 15 0) := by
  decide

/-! ## Claim C3 -/

/-- **C3** (amended): each `encrypt` (hence each `request`) advances the
stored sequence number by exactly one in 32-bit two's-complement arithmetic;
the advance is a strict increase whenever the previous value is not
`2^31 - 1` (where the Go `int32` increment wraps to `-2^31`); the value in
the `request?seq=` query string, the 4-byte big-endian suffix of the 16-byte
IV, the value mixed into the SHA-256 signature, and the value handed to the
response `decrypt` are all that same value; and the first request of a
freshly derived session uses `seq₀ + 1`. -/
theorem claim3_seq_discipline (E D : List Nat → List Nat → List Nat)
    (respond : List Nat → List Nat) (s : KlapState) (pt : List Nat)
    (hlo : -2147483648 ≤ s.seq) (hhi : s.seq < 2147483648)
    (hkey : s.key.length = 16) :
    (klapEncrypt E s pt).2.seq = wrap32 (s.seq + 1) ∧
    (s.seq ≠ 2147483647 → (klapEncrypt E s pt).2.seq = s.seq + 1 ∧
      s.seq < (klapEncrypt E s pt).2.seq) ∧
    (∀ tr s2, klapRequest E D respond s pt = (.ok tr, s2) →
      tr.urlSeq = wrap32 (s.seq + 1) ∧
      s2.seq = tr.urlSeq ∧
      tr.sentBody =
        sha256Hash [s.sig, int32be tr.urlSeq, encCiphertext E s pt] ++
          encCiphertext E s pt ∧
      encCiphertext E s pt =
        (cbcEnc (E s.key) (buildIV s.ivSeq tr.urlSeq)
          (chunksSucc 15 (pkcs7Pad pt 16))).flatten ∧
      buildIV s.ivSeq tr.urlSeq =
        (s.ivSeq.take 12 ++ List.replicate (12 - s.ivSeq.length) 0) ++
          int32be tr.urlSeq ∧
      tr.result = klapDecrypt D s2 (respond tr.sentBody) tr.urlSeq) ∧
    (∀ ls rs ah,
      (klapEncrypt E (deriveKeys (mkSession ls rs ah)) pt).2.seq =
        wrap32 ((deriveKeys (mkSession ls rs ah)).seq + 1)) := by
  have hpair : klapEncrypt E s pt =
      (.ok (encPayload E s pt, wrap32 (s.seq + 1)),
       { s with seq := wrap32 (s.seq + 1) }) := by
    have h1 := klapEncrypt_ok E s pt hkey
    have h2 := klapEncrypt_state E s pt
    exact Prod.ext h1 h2
  refine ⟨by rw [klapEncrypt_state], ?_, ?_, fun ls rs ah => by rw [klapEncrypt_state]⟩
  · intro hne
    rw [klapEncrypt_state]
    simp only [wrap32]
    split <;> omega
  · intro tr s2 h
    unfold klapRequest at h
    rw [hpair] at h
    simp only [Prod.mk.injEq] at h
    obtain ⟨h1, h2⟩ := h
    injection h1 with h1
    subst h2
    subst h1
    exact ⟨rfl, rfl, rfl, rfl, rfl, rfl⟩

/-- Witness for C3: a non-overflowing session advances its sequence number
from 0 to 1. -/
theorem claim3_witness :
    ((0 : Int) ≠ 2147483647) ∧
    (klapEncrypt (fun _ x => x)
        (KlapState.mk [] [] [] (List.replicate 16 0) (List.replicate 12 0)
          (List.replicate 28 0) 0) []).2.seq = 0 + 1 ∧
    (0 : Int) < (klapEncrypt (fun _ x => x)
        (KlapState.mk [] [] [] (List.replicate 16 0) (List.replicate 12 0)
          (List.replicate 28 0) 0) []).2.seq :=
  ⟨by decide,
   (claim3_seq_discipline (fun _ x => x) (fun _ x => x) (fun _ => [])
       (KlapState.mk [] [] [] (List.replicate 16 0) (List.replicate 12 0)
         (List.replicate 28 0) 0) [] (by decide) (by decide) (by decide)).2.1
     (by decide)⟩

/-- Counterexample to C3 as stated: at the stored value `2^31 - 1` the next
request's sequence number is `-2^31`, which is smaller — the counter is not
strictly monotonically increasing and the new value is not the previous
value plus 1 as an integer. -/
theorem claim3_counterexample :
    (klapEncrypt (fun _ x => x)
        (KlapState.mk [] [] [] (List.replicate 16 0) (List.replicate 12 0)
          (List.replicate 28 0) 2147483647) []).2.seq = -2147483648 ∧
    (klapEncrypt (fun _ x => x)
        (KlapState.mk [] [] [] (List.replicate 16 0) (List.replicate 12 0)
          (List.replicate 28 0) 2147483647) []).2.seq <
      (KlapState.mk [] [] [] (List.replicate 16 0) (List.replicate 12 0)
        (List.replicate 28 0) 2147483647).seq ∧
    (klapEncrypt (fun _ x => x)
        (KlapState.mk [] [] [] (List.replicate 16 0) (List.replicate 12 0)
          (List.replicate 28 0) 2147483647) []).2.seq ≠ 2147483647 + 1 := by
  rw [klapEncrypt_state]
  refine ⟨by decide, by decide, by decide⟩

end P110
